import Mathlib

/-!
# CattoPic worker — shallow embedding and verification

This file embeds the core of the CattoPic image-hosting worker
(`src/worker/src/services/compression.ts` — compression service, metadata
service, URL resolution — and the handlers in `src/worker/src/handlers/`
plus the tag handlers) as executable Lean definitions, and proves or
refutes the specification claims about them.

Bytes are modelled as `List Nat`, database rows as structures, SQL queries
as list computations over an explicit database value, and the effectful
parts (transform calls, storage puts, queue sends) as oracle functions or
explicit event traces.
-/

namespace CattoPic

/-! ## Generic chunking

`for (let i = 0; i < xs.length; i += chunkSize) { xs.slice(i, i + chunkSize) }`
— used by `enrichWithTags` (chunkSize 90) and `deleteTagHandler` (chunkSize 50).
For `n = 0` the source loop would not terminate; the sources only ever call
this with the constants 90 and 50, and we return `[]` for `n = 0`. -/
def chunksOf (n : Nat) (l : List α) : List (List α) :=
  if h : l.isEmpty ∨ n = 0 then [] else
    l.take n :: chunksOf n (l.drop n)
termination_by l.length
decreasing_by
  simp only [not_or, List.isEmpty_iff] at h
  simp only [List.length_drop]
  have : l.length ≠ 0 := fun hl => h.1 (List.eq_nil_of_length_eq_zero hl)
  omega

theorem chunksOf_length_le {n : Nat} (l : List α) :
    ∀ c ∈ chunksOf n l, c.length ≤ n := by
  induction l using chunksOf.induct n with
  | case1 l h => rw [chunksOf, dif_pos h]; simp
  | case2 l h ih =>
    rw [chunksOf, dif_neg h]
    simp only [List.mem_cons]
    rintro c (rfl | hc)
    · simp [List.length_take_le n l]
    · exact ih c hc

theorem chunksOf_flatten {n : Nat} (l : List α) (hn : n ≠ 0) :
    (chunksOf n l).flatten = l := by
  induction l using chunksOf.induct n with
  | case1 l h =>
    rw [chunksOf, dif_pos h]
    rcases h with h | h
    · simp [List.isEmpty_iff.mp h]
    · exact absurd h hn
  | case2 l h ih =>
    rw [chunksOf, dif_neg h]
    simp [ih, List.take_append_drop]

/-! ## CompressionService (src/worker/src/services/compression.ts) -/

/-- A compressed variant, mirroring `CompressedImage`
(`{ data, contentType, size }`). -/
structure CompressedImage where
  data : List Nat
  contentType : String
  size : Nat
deriving DecidableEq, Repr

/-- Mirrors `CompressionResult` (`{ original, webp?, avif?, isAnimated }`). -/
structure CompressionResult where
  original : List Nat
  webp : Option CompressedImage := none
  avif : Option CompressedImage := none
  isAnimated : Bool
deriving DecidableEq, Repr

/-- Mirrors `Required<CompressionOptions>` after merging with
`DEFAULT_OPTIONS` (`quality: 90, maxWidth: 3840, maxHeight: 3840,
preserveAnimation: true, generateWebp: true, generateAvif: true`). -/
structure CompressionOptions where
  quality : Nat := 90
  maxWidth : Nat := 3840
  maxHeight : Nat := 3840
  preserveAnimation : Bool := true
  generateWebp : Bool := true
  generateAvif : Bool := true
deriving DecidableEq, Repr

/-- `message.toLowerCase()` on the model of an error message. -/
def lowerStr (s : String) : String := String.mk (s.toList.map Char.toLower)

/-- A needle/haystack substring test on character lists, modelling
JavaScript `String.prototype.includes`. -/
def charListHas (needle hay : List Char) : Bool :=
  match hay with
  | [] => needle.isEmpty
  | _ :: t => hay.take needle.length == needle || charListHas needle t

/-- `strIncludes hay needle` models `hay.includes(needle)`. -/
def strIncludes (hay needle : String) : Bool :=
  charListHas needle.toList hay.toList

/-- `CompressionService.isRetryableTransformError`: the message, lowercased,
contains one of the transient-failure substrings. -/
def isRetryableTransformError (message : String) : Bool :=
  let lower := lowerStr message
  strIncludes lower "network connection lost" ||
  strIncludes lower "connection lost" ||
  strIncludes lower "fetch failed" ||
  strIncludes lower "timeout" ||
  strIncludes lower "timed out" ||
  strIncludes lower "econnreset" ||
  strIncludes lower "eai_again" ||
  strIncludes lower "temporar"

/-- Outcome of a `withRetry` run: the final result plus the list of
backoff delays actually slept (one delay precedes each retry, so the
number of attempts made is `delays.length + 1`). -/
structure RetryRun (α : Type) where
  result : Except String α
  delays : List Nat
deriving Repr

/-- The body of `CompressionService.withRetry`'s `for` loop.  `f a` is the
outcome of calling `fn` on attempt number `a` (1-based).  `remaining` is
the loop-bound fuel `attempts - attempt + 1`; the source condition
`attempt >= attempts` corresponds to `remaining = 1`. -/
def withRetryGo (f : Nat → Except String α) (baseDelayMs attempt : Nat) :
    Nat → RetryRun α
  | 0 => ⟨.error "unreachable", []⟩
  | remaining + 1 =>
    match f attempt with
    | .ok v => ⟨.ok v, []⟩
    | .error e =>
      if remaining = 0 || !isRetryableTransformError e then ⟨.error e, []⟩
      else
        let rest := withRetryGo f baseDelayMs (attempt + 1) remaining
        ⟨rest.result, baseDelayMs * 2 ^ (attempt - 1) :: rest.delays⟩

/-- `CompressionService.withRetry(label, fn, { attempts, baseDelayMs })`.
Defaults in the source are `attempts = 3`, `baseDelayMs = 120`.  With
`attempts = 0` the source loop never runs and throws the undefined
`lastError`. -/
def withRetry (f : Nat → Except String α) (attempts : Nat)
    (baseDelayMs : Nat := 120) : RetryRun α :=
  if attempts = 0 then ⟨.error "undefined", []⟩
  else withRetryGo f baseDelayMs 1 attempts

/-- `CompressionService.isAnimatedGif`'s scan: count Graphic Control
Extensions (`0x21 0xF9`) and Image Descriptors (`0x2C`) at indices
`i < bytes.length - 1`. -/
def gifFrameMarkers : List Nat → Nat
  | a :: b :: rest =>
    (if a = 0x21 ∧ b = 0xF9 then 1 else 0) +
    (if a = 0x2C then 1 else 0) +
    gifFrameMarkers (b :: rest)
  | _ => 0

/-- `CompressionService.isAnimatedGif`: true when more than one frame
marker is found (the source returns early once `frameCount > 1`). -/
def isAnimatedGif (data : List Nat) : Bool :=
  2 ≤ gifFrameMarkers data

/-- `Math.round` on a rational (JavaScript rounds half toward +∞). -/
def jsRound (q : ℚ) : ℤ := ⌊q + 1 / 2⌋

/-- `CompressionService.calculateDimensions` (identical to the helper of
the same name in the URL-resolution module): aspect-ratio-preserving
downscale to fit `maxWidth × maxHeight`. -/
def calculateDimensions (width height maxWidth maxHeight : ℤ) : ℤ × ℤ :=
  if width ≤ maxWidth ∧ height ≤ maxHeight then (width, height)
  else
    let scale : ℚ := min ((maxWidth : ℚ) / width) ((maxHeight : ℚ) / height)
    (jsRound (width * scale), jsRound (height * scale))

/-- The effectful collaborators of `CompressionService.compress`:
`ImageProcessor.getImageDimensions` supplies `width`/`height`, and
`compressToFormat` (the Images-binding transform) is an oracle mapping the
target dimensions and the 1-based attempt number to an outcome. -/
structure TransformEnv where
  width : ℤ
  height : ℤ
  webpOutcome : ℤ × ℤ → Nat → Except String CompressedImage
  avifOutcome : ℤ × ℤ → Nat → Except String CompressedImage

/-- Target dimensions for the WebP variant
(`calculateDimensions(width, height, opts.maxWidth, opts.maxHeight)`). -/
def webpTargetDims (opts : CompressionOptions) (width height : ℤ) : ℤ × ℤ :=
  calculateDimensions width height opts.maxWidth opts.maxHeight

/-- Target dimensions for the AVIF variant
(`calculateDimensions(width, height, Math.min(opts.maxWidth, 1600),
Math.min(opts.maxHeight, 1600))`). -/
def avifTargetDims (opts : CompressionOptions) (width height : ℤ) : ℤ × ℤ :=
  calculateDimensions width height (min opts.maxWidth 1600) (min opts.maxHeight 1600)

/-- The `withRetry('WebP compression', …, { attempts: 2 })` call inside
`compress`. -/
def webpRetry (env : TransformEnv) (opts : CompressionOptions) :
    RetryRun CompressedImage :=
  withRetry (env.webpOutcome (webpTargetDims opts env.width env.height)) 2 120

/-- The `withRetry('AVIF compression', …, { attempts: 3 })` call inside
`compress`. -/
def avifRetry (env : TransformEnv) (opts : CompressionOptions) :
    RetryRun CompressedImage :=
  withRetry (env.avifOutcome (avifTargetDims opts env.width env.height)) 3 120

/-- `CompressionService.compress(data, format, options)` after the merge
with `DEFAULT_OPTIONS`.  The `.catch(() => null)` around each retry block
becomes `Except.toOption`. -/
def compress (env : TransformEnv) (data : List Nat) (format : String)
    (opts : CompressionOptions) : CompressionResult :=
  let animated := format == "gif" && isAnimatedGif data
  if animated && opts.preserveAnimation then
    { original := data, isAnimated := true }
  else
    let webpResult := if opts.generateWebp then (webpRetry env opts).result.toOption else none
    let avifResult := if opts.generateAvif then (avifRetry env opts).result.toOption else none
    { original := data, isAnimated := false, webp := webpResult, avif := avifResult }

/-! ## MetadataService (metadata half of src/worker/src/services/compression.ts)

The relational store is modelled explicitly: `images`, `tags` and
`image_tags` are lists of rows, and the SQL of `getRandomImage` is
rendered as a list computation clause by clause. -/

/-- A row of the `images` table, restricted to the columns the
`getRandomImage` query constrains (`id`, `orientation`); the remaining
`i.*` columns are carried unchanged by the query and irrelevant to
candidate membership. -/
structure ImageRow where
  id : String
  orientation : String
deriving DecidableEq, Repr

/-- A row of the `tags` table. -/
structure TagRow where
  id : Nat
  name : String
deriving DecidableEq, Repr

/-- A row of the `image_tags` join table. -/
structure ImageTagRow where
  imageId : String
  tagId : Nat
deriving DecidableEq, Repr

/-- The relational database owned by `MetadataService`. -/
structure Db where
  images : List ImageRow
  tags : List TagRow
  imageTags : List ImageTagRow
deriving DecidableEq, Repr

/-- The tag names produced for image `iid` by
`JOIN image_tags it ON i.id = it.image_id JOIN tags t ON it.tag_id = t.id`:
one entry per matching `(it, t)` row pair. -/
def joinedTagNames (db : Db) (iid : String) : List String :=
  (db.imageTags.filter (fun it => it.imageId == iid)).flatMap (fun it =>
    (db.tags.filter (fun t => t.id == it.tagId)).map (fun t => t.name))

/-- Membership of `iid` in the exclude subquery
`SELECT it2.image_id FROM image_tags it2 JOIN tags t2 ON it2.tag_id = t2.id
WHERE t2.name IN (exclude)`. -/
def isExcluded (db : Db) (exclude : List String) (iid : String) : Bool :=
  (joinedTagNames db iid).any (fun n => exclude.contains n)

/-- The orientation condition: the source adds `i.orientation = ?` only
when `filters?.orientation` is truthy, so `none` and `some ""` filter
nothing. -/
def orientationOk (orientation : Option String) (i : ImageRow) : Bool :=
  match orientation with
  | none => true
  | some s => s == "" || i.orientation == s

/-- The candidate set of `MetadataService.getRandomImage(filters)` — the
rows of the query

```
SELECT i.* FROM images i [JOIN image_tags it … JOIN tags t …]
[WHERE t.name IN (tags)]
[AND i.id NOT IN (exclude subquery)] [AND i.orientation = ?]
[GROUP BY i.id HAVING COUNT(DISTINCT t.name) = tags.length]
```

before `ORDER BY RANDOM() LIMIT 1` picks one of them.  Empty `tags` /
`exclude` lists model absent-or-empty filters (`filters?.tags?.length` is
falsy for both).  When a join is present, an image contributes rows only
if it has at least one `(image_tags, tags)` pair; the `HAVING` clause
counts the distinct joined tag names that the `WHERE t.name IN (tags)`
clause kept. -/
def getRandomImageCandidates (db : Db) (tags exclude : List String)
    (orientation : Option String) : List ImageRow :=
  let hasTagFilter := !tags.isEmpty
  let hasExcludeFilter := !exclude.isEmpty
  if hasTagFilter || hasExcludeFilter then
    db.images.filter (fun i =>
      orientationOk orientation i &&
      (!hasExcludeFilter || !isExcluded db exclude i.id) &&
      (if hasTagFilter then
        ((joinedTagNames db i.id).filter (fun n => tags.contains n)).dedup.length
          == tags.length
      else !(joinedTagNames db i.id).isEmpty))
  else
    db.images.filter (fun i => orientationOk orientation i)

/-- The spec's matching condition for `getRandomImage`, written from the
claim's words for comparison with the candidate set computed from the
source: associated with every tag in `tags`, with no tag in `exclude`,
and of the given orientation. -/
def specMatchesFilters (db : Db) (tags exclude : List String)
    (orientation : Option String) (i : ImageRow) : Bool :=
  tags.all (fun t => (joinedTagNames db i.id).contains t) &&
  exclude.all (fun t => !(joinedTagNames db i.id).contains t) &&
  orientationOk orientation i

/-- The per-statement chunks of image ids used by
`MetadataService.enrichWithTags` (`chunkSize = 90`); each chunk is the
bound-parameter list of one `WHERE it.image_id IN (…)` query. -/
def enrichWithTagsChunks (imageIds : List String) : List (List String) :=
  chunksOf 90 imageIds

/-- The bound-parameter lists of the statements issued by
`MetadataService.batchUpdateTags(imageIds, addTags, removeTags)`, in
order: one `INSERT OR IGNORE INTO tags` per added tag (1 parameter), one
bulk `DELETE` binding all image ids plus all removed tags, and one bulk
`INSERT` per added tag binding the tag plus all image ids. -/
def batchUpdateTagsStatements (imageIds addTags removeTags : List String) :
    List (List String) :=
  if imageIds.isEmpty then [] else
  (addTags.map (fun t => [t])) ++
  (if removeTags.isEmpty then [] else [imageIds ++ removeTags]) ++
  (if addTags.isEmpty then [] else addTags.map (fun t => t :: imageIds))

/-! ## Upload handler (src/worker/src/handlers/upload.ts) -/

/-- The three storage keys of an image; mirrors `ImageMetadata.paths`
(after `rowToMetadata`, absent webp/avif read back as `''`). -/
structure ImagePaths where
  original : String
  webp : String
  avif : String
deriving DecidableEq, Repr

/-- Modelled from the spec: `StorageService.generatePaths` lives in
`src/worker/src/services/storage.ts`, which is not under src/.  §6 of the
spec says object keys are deterministic paths derived from image id,
orientation, and format; we model the three keys as distinct non-empty
deterministic strings. -/
def generatePaths (id orientation format : String) : ImagePaths :=
  { original := "images/" ++ orientation ++ "/" ++ id ++ "." ++ format,
    webp := "images/" ++ orientation ++ "/" ++ id ++ ".webp",
    avif := "images/" ++ orientation ++ "/" ++ id ++ ".avif" }

/-- Result of `ImageProcessor.getImageInfo` (external decode capability). -/
structure ImageInfo where
  format : String
  width : ℤ
  height : ℤ
  orientation : String
deriving DecidableEq, Repr

/-- One `storage.upload(key, bytes, contentType)` call. -/
structure StoredObject where
  key : String
  bytes : List Nat
  contentType : String
deriving DecidableEq, Repr

/-- The part of the metadata record built by `uploadSingleHandler`
relevant to the path/size claims. -/
structure SavedImage where
  id : String
  orientation : String
  format : String
  paths : ImagePaths
  sizeOriginal : Nat
  sizeWebp : Nat
  sizeAvif : Nat
  tags : List String
deriving DecidableEq, Repr

/-- `uploadSingleHandler`'s storage writes and metadata record, given the
decoded image info, the compression outcome `cr` and whether the Images
binding is configured (`compressionAvailable = !!c.env.IMAGES`).  The three
branches mirror lines 52–97 of the handler: non-GIF with compression
(variant bytes, falling back to the original bytes for an omitted
variant), non-GIF without compression (original bytes stored under all
three keys), GIF (only the original stored).  The metadata record always
carries the full generated `paths`. -/
def uploadSingle (id : String) (info : ImageInfo) (bytes : List Nat)
    (fileSize : Nat) (contentType : String) (compressionAvailable : Bool)
    (cr : CompressionResult) (tags : List String) :
    SavedImage × List StoredObject :=
  let paths := generatePaths id info.orientation info.format
  let isGif := info.format == "gif"
  let (uploads, webpSize, avifSize) :=
    if !isGif && compressionAvailable then
      let webpUpload :=
        match cr.webp with
        | some v => ((⟨paths.webp, v.data, "image/webp"⟩ : StoredObject), v.size)
        | none => ((⟨paths.webp, bytes, contentType⟩ : StoredObject), fileSize)
      let avifUpload :=
        match cr.avif with
        | some v => ((⟨paths.avif, v.data, "image/avif"⟩ : StoredObject), v.size)
        | none => ((⟨paths.avif, bytes, contentType⟩ : StoredObject), fileSize)
      ([⟨paths.original, bytes, contentType⟩, webpUpload.1, avifUpload.1],
        webpUpload.2, avifUpload.2)
    else if !isGif then
      ([⟨paths.original, bytes, contentType⟩,
        ⟨paths.webp, bytes, contentType⟩,
        ⟨paths.avif, bytes, contentType⟩], fileSize, fileSize)
    else
      ([⟨paths.original, bytes, contentType⟩], 0, 0)
  ({ id := id
     orientation := info.orientation
     format := info.format
     paths := paths
     sizeOriginal := fileSize
     sizeWebp := webpSize
     sizeAvif := avifSize
     tags := tags }, uploads)

/-! ## Tag-deletion handler (`deleteTagHandler`, src/unnamed/part_000) -/

/-- One element of the queue payload's `imagePaths`: the handler maps the
rows of `getImagePathsByTag` to `{id, paths: {original, webp?, avif?}}`
with null variants turned into `undefined`. -/
structure TagImageEntry where
  id : String
  original : String
  webp : Option String
  avif : Option String
deriving DecidableEq, Repr

/-- Observable steps of the tag-deletion pipeline, in execution order. -/
inductive DeleteEvent where
  | metaDeleted (deletedImages : Nat)
  | cacheInvalidated
  | queueSent (chunk : List TagImageEntry)
deriving DecidableEq, Repr

/-- `deleteTagHandler` after step 1 (the `getImagePathsByTag` read, whose
result is the `images` argument): synchronously delete the metadata
(`metaResult` is the outcome of `deleteTagWithImages`), invalidate the
cache, then enqueue the object deletions in chunks of `chunkSize = 50`.
A thrown metadata deletion is caught and reported as failure before any
later step runs.  Returns the success flag of the response together with
the trace of completed steps. -/
def deleteTagHandler (images : List TagImageEntry)
    (metaResult : Except String Nat) : Bool × List DeleteEvent :=
  match metaResult with
  | .error _ => (false, [])
  | .ok deletedImages =>
    (true, .metaDeleted deletedImages :: .cacheInvalidated ::
      (chunksOf 50 images).map .queueSent)

/-! ## URL/variant resolution (src/worker/src/utils/imageTransform.ts,
third section of the provided compression.ts sources) -/

/-- Merged options of `buildImageUrls`
(`{ ...DEFAULT_OPTIONS, ...(options || {}) }` with this module's defaults:
quality 90, maxWidth 0, maxHeight 0, generateWebp true, generateAvif
true). -/
structure UrlOptions where
  quality : ℤ := 90
  maxWidth : ℤ := 0
  maxHeight : ℤ := 0
  generateWebp : Bool := true
  generateAvif : Bool := true
deriving DecidableEq, Repr

/-- `clampInt(value, min, max)`; numbers are modelled as integers, which
are always finite, and `Math.trunc` is the identity on them. -/
def clampInt (value lo hi : ℤ) : ℤ := max lo (min hi value)

/-- `toPositiveInt(value, fallback)` for an integer input:
`Math.max(0, Math.trunc(num))`.  (`fallback` is returned only for
non-numeric input, which the integer model has no inhabitant for.) -/
def toPositiveInt (value _fallback : ℤ) : ℤ := max 0 value

/-- `buildPublicUrl(baseUrl, key)`.  `new URL(normalizedKey, base)` with a
base ending in `/` and a relative, scheme-less key — the shape of every
key this repository stores — resolves to their concatenation. -/
def buildPublicUrl (baseUrl key : String) : String :=
  let base := if baseUrl.endsWith "/" then baseUrl else baseUrl ++ "/"
  let normalizedKey := if key.startsWith "/" then key.drop 1 else key
  base ++ normalizedKey

/-- Split `scheme://` (inclusive) from the remainder of a URL. -/
def splitSchemeRest : List Char → List Char × List Char
  | ':' :: '/' :: '/' :: rest => ([':', '/', '/'], rest)
  | c :: rest =>
    let p := splitSchemeRest rest
    (c :: p.1, p.2)
  | [] => ([], [])

/-- Split a character list at the first occurrence of `c`
(the second component starts with `c` when present). -/
def splitAtChar (c : Char) : List Char → List Char × List Char
  | [] => ([], [])
  | x :: xs =>
    if x == c then ([], x :: xs)
    else
      let p := splitAtChar c xs
      (x :: p.1, p.2)

/-- `new URL(u)` decomposition into `origin`, `pathname`, `search` for the
well-formed absolute `scheme://host/path?search` URLs this module
produces. -/
def urlParts (u : String) : String × String × String :=
  let (scheme, rest) := splitSchemeRest u.toList
  let (host, pathSearch) := splitAtChar '/' rest
  let (path, search) := splitAtChar '?' pathSearch
  (String.mk (scheme ++ host), String.mk path, String.mk search)

/-- `buildTransformedUrl(originalUrl, optionsString)`:
`origin + '/cdn-cgi/image/' + optionsString + pathname + search`. -/
def buildTransformedUrl (originalUrl optionsString : String) : String :=
  let p := urlParts originalUrl
  p.1 ++ "/cdn-cgi/image/" ++ optionsString ++ p.2.1 ++ p.2.2

/-- `buildCdnCgiOptionsString`: always `format` and clamped `quality`;
width/height/fit only when both dimensions are truthy (non-zero). -/
def buildCdnCgiOptionsString (format : String) (quality : ℤ)
    (dims : Option (ℤ × ℤ)) : String :=
  let parts := ["format=" ++ format, "quality=" ++ toString (clampInt quality 1 100)]
  let parts :=
    match dims with
    | some (w, h) =>
      if w ≠ 0 ∧ h ≠ 0 then
        parts ++ ["width=" ++ toString w, "height=" ++ toString h, "fit=scale-down"]
      else parts
    | none => parts
  String.intercalate "," parts

/-- The `Pick<ImageMetadata, 'format' | 'width' | 'height' | 'paths'>`
argument of `buildImageUrls`. -/
structure UrlImage where
  format : String
  width : ℤ
  height : ℤ
  paths : ImagePaths
deriving DecidableEq, Repr

/-- The `{ original, webp, avif }` URLs returned by `buildImageUrls`. -/
structure ImageUrls where
  original : String
  webp : String
  avif : String
deriving DecidableEq, Repr

/-- `buildImageUrls({ baseUrl, image, options, preferStoredVariants })`,
clause by clause from the source: GIF returns the original with empty
variant URLs; otherwise each variant URL is the stored variant (unless it
is the marker `paths.webp === paths.original`), else the original when the
image already has that format, else a `/cdn-cgi/image/` transform URL when
the source format is JPEG/JPG/PNG, else empty; a variant whose generate
flag is false resolves to empty. -/
def buildImageUrls (baseUrl : String) (image : UrlImage) (opts : UrlOptions)
    (preferStoredVariants : Bool := true) : ImageUrls :=
  let originalUrl := buildPublicUrl baseUrl image.paths.original
  let formatLower := lowerStr image.format
  if formatLower == "gif" then
    { original := originalUrl, webp := "", avif := "" }
  else
    let canTransformFromOriginal :=
      formatLower == "jpeg" || formatLower == "jpg" || formatLower == "png"
    let generateWebp := opts.generateWebp
    let generateAvif := opts.generateAvif
    let isWebpMarker := !(image.paths.webp == "") &&
      image.paths.webp == image.paths.original && !(formatLower == "webp")
    let isAvifMarker := !(image.paths.avif == "") &&
      image.paths.avif == image.paths.original && !(formatLower == "avif")
    let webpStored :=
      if preferStoredVariants && !(image.paths.webp == "") && !isWebpMarker then
        buildPublicUrl baseUrl image.paths.webp
      else ""
    let avifStored :=
      if preferStoredVariants && !(image.paths.avif == "") && !isAvifMarker then
        buildPublicUrl baseUrl image.paths.avif
      else ""
    let quality := clampInt (toPositiveInt opts.quality 90) 1 100
    let maxWidth := toPositiveInt opts.maxWidth 0
    let maxHeight := toPositiveInt opts.maxHeight 0
    let hasResizeLimit := maxWidth > 0 && maxHeight > 0
    let dims : Option (ℤ × ℤ) :=
      if hasResizeLimit then
        some (calculateDimensions image.width image.height maxWidth maxHeight)
      else none
    let webpUrl :=
      if !generateWebp then ""
      else if !(webpStored == "") then webpStored
      else if formatLower == "webp" then originalUrl
      else if !canTransformFromOriginal then ""
      else buildTransformedUrl originalUrl (buildCdnCgiOptionsString "webp" quality dims)
    let avifUrl :=
      if !generateAvif then ""
      else if !(avifStored == "") then avifStored
      else if formatLower == "avif" then originalUrl
      else if !canTransformFromOriginal then ""
      else buildTransformedUrl originalUrl (buildCdnCgiOptionsString "avif" quality dims)
    { original := originalUrl, webp := webpUrl, avif := avifUrl }

/-! ## Random handler (src/worker/src/handlers/random.ts) -/

/-- The orientation actually passed to `getRandomImage` by
`randomHandler` (lines 22–30): the query parameter when it is exactly
`landscape` or `portrait`, otherwise derived from the User-Agent via
`isMobileDevice` (in `src/worker/src/utils/validation.ts`, not under
src/, abstracted here as the boolean `isMobile`). -/
def randomHandlerOrientation (orientationParam : Option String)
    (isMobile : Bool) : String :=
  match orientationParam with
  | some "landscape" => "landscape"
  | some "portrait" => "portrait"
  | _ => if isMobile then "portrait" else "landscape"

/-- The `buildImageUrls` call of `randomHandler` (lines 45–52):
`generateWebp`/`generateAvif` are set to the truthiness of the stored
variant paths. -/
def randomHandlerUrls (baseUrl : String) (image : UrlImage) : ImageUrls :=
  buildImageUrls baseUrl image
    { generateWebp := !(image.paths.webp == ""),
      generateAvif := !(image.paths.avif == "") }
    true

/-- Modelled from the spec: `getBestFormat` lives in
`src/worker/src/utils/validation.ts`, not under src/.  §4.5: parse the
`Accept` header for AVIF/WebP support and prefer AVIF > WebP >
original. -/
def getBestFormat (acceptHeader : Option String) : String :=
  match acceptHeader with
  | none => "original"
  | some a =>
    if strIncludes a "image/avif" then "avif"
    else if strIncludes a "image/webp" then "webp"
    else "original"

/-- Target-URL selection of `randomHandler` (lines 54–78). -/
def randomHandlerTargetUrl (image : UrlImage) (urls : ImageUrls)
    (formatParam : Option String) (acceptHeader : Option String) : String :=
  if image.format == "gif" then urls.original
  else if formatParam == some "original" then urls.original
  else if formatParam == some "webp" then
    (if urls.webp == "" then urls.original else urls.webp)
  else if formatParam == some "avif" then
    (if urls.avif == "" then urls.original else urls.avif)
  else
    let best := getBestFormat acceptHeader
    if best == "avif" && !(urls.avif == "") then urls.avif
    else if best == "webp" && !(urls.webp == "") then urls.webp
    else urls.original

/-! ## Concrete instances used by closed theorems -/

/-- A transform environment whose oracle always succeeds. -/
def sampleEnv : TransformEnv :=
  ⟨100, 100, fun _ _ => .ok ⟨[0], "image/webp", 1⟩,
    fun _ _ => .ok ⟨[0], "image/avif", 1⟩⟩

/-- A database holding one untagged landscape image. -/
def untaggedDb : Db := ⟨[⟨"i1", "landscape"⟩], [], []⟩

/-- Decoded info of a 2000×3000 JPEG upload. -/
def jpegInfo : ImageInfo := ⟨"jpeg", 2000, 3000, "portrait"⟩

/-- A compression outcome in which both variants were omitted after
retries. -/
def noVariantResult : CompressionResult :=
  { original := [1, 2, 3], isAnimated := false }

/-- A JPEG image record with no stored variant paths (as read back by
`rowToMetadata` when `path_webp`/`path_avif` are NULL). -/
def jpegNoVariantImage : UrlImage :=
  ⟨"jpeg", 2000, 3000, ⟨"o/x.jpg", "", ""⟩⟩

/-- A database holding one landscape image tagged `a`. -/
def taggedDb : Db := ⟨[⟨"i1", "landscape"⟩], [⟨1, "a"⟩], [⟨"i1", 1⟩]⟩

/-- A GIF image record. -/
def gifImage : UrlImage := ⟨"gif", 10, 10, ⟨"o/x.gif", "", ""⟩⟩

/-- A JPEG image record with both stored variants. -/
def jpegStoredImage : UrlImage :=
  ⟨"jpeg", 2000, 3000, ⟨"o/x.jpg", "o/x.webp", "o/x.avif"⟩⟩

/-! ## Retry lemmas -/

theorem withRetryGo_delays_le (f : Nat → Except String α) (baseDelayMs : Nat) :
    ∀ remaining attempt,
      (withRetryGo f baseDelayMs attempt remaining).delays.length ≤ remaining - 1 := by
  intro remaining
  induction remaining with
  | zero => intro attempt; simp [withRetryGo]
  | succ n ih =>
    intro attempt
    cases hf : f attempt with
    | ok v => simp [withRetryGo, hf]
    | error e =>
      simp only [withRetryGo, hf]
      by_cases hc : (decide (n = 0) || !isRetryableTransformError e) = true
      · rw [if_pos hc]; simp
      · rw [if_neg hc]
        have hn : n ≠ 0 := by
          intro h0; subst h0; simp at hc
        have := ih (attempt + 1)
        simp only [List.length_cons]
        omega

theorem withRetryGo_delays_getElem (f : Nat → Except String α) (baseDelayMs : Nat) :
    ∀ remaining attempt, 1 ≤ attempt → ∀ i,
      i < (withRetryGo f baseDelayMs attempt remaining).delays.length →
      (withRetryGo f baseDelayMs attempt remaining).delays[i]? =
        some (baseDelayMs * 2 ^ (attempt - 1 + i)) := by
  intro remaining
  induction remaining with
  | zero => intro attempt _ i hi; simp [withRetryGo] at hi
  | succ n ih =>
    intro attempt ha i hi
    cases hf : f attempt with
    | ok v => simp [withRetryGo, hf] at hi
    | error e =>
      simp only [withRetryGo, hf] at hi ⊢
      by_cases hc : (decide (n = 0) || !isRetryableTransformError e) = true
      · rw [if_pos hc] at hi; simp at hi
      · rw [if_neg hc] at hi ⊢
        cases i with
        | zero => simp
        | succ j =>
          simp only [List.length_cons, Nat.succ_lt_succ_iff] at hi
          simp only [List.getElem?_cons_succ]
          rw [ih (attempt + 1) (by omega) j hi,
            show attempt + 1 - 1 + j = attempt - 1 + (j + 1) from by omega]

theorem withRetry_delays_getElem (f : Nat → Except String α)
    (attempts baseDelayMs : Nat) (i : Nat)
    (hi : i < (withRetry f attempts baseDelayMs).delays.length) :
    (withRetry f attempts baseDelayMs).delays[i]? = some (baseDelayMs * 2 ^ i) := by
  unfold withRetry at hi ⊢
  by_cases h0 : attempts = 0
  · rw [if_pos h0] at hi; simp at hi
  · rw [if_neg h0] at hi ⊢
    simpa using withRetryGo_delays_getElem f baseDelayMs attempts 1 (by omega) i hi

theorem withRetry_attempts_le (f : Nat → Except String α) (attempts baseDelayMs : Nat)
    (h : 1 ≤ attempts) :
    (withRetry f attempts baseDelayMs).delays.length + 1 ≤ attempts := by
  unfold withRetry
  rw [if_neg (by omega)]
  have := withRetryGo_delays_le f baseDelayMs attempts 1
  omega

theorem withRetry_nonretryable_aborts (f : Nat → Except String α)
    (attempts baseDelayMs : Nat) (e : String) (h : 1 ≤ attempts)
    (hf : f 1 = .error e) (hr : isRetryableTransformError e = false) :
    withRetry f attempts baseDelayMs = ⟨.error e, []⟩ := by
  unfold withRetry
  rw [if_neg (by omega)]
  obtain ⟨k, rfl⟩ : ∃ k, attempts = k + 1 := ⟨attempts - 1, by omega⟩
  simp [withRetryGo, hf, hr]

theorem withRetry_retryable_backoff (f : Nat → Except String α)
    (attempts baseDelayMs : Nat) (e : String) (h : 2 ≤ attempts)
    (hf : f 1 = .error e) (hr : isRetryableTransformError e = true) :
    1 ≤ (withRetry f attempts baseDelayMs).delays.length ∧
    (withRetry f attempts baseDelayMs).delays.head? = some (baseDelayMs * 2 ^ 0) := by
  unfold withRetry
  rw [if_neg (by omega)]
  obtain ⟨k, rfl⟩ : ∃ k, attempts = (k + 1) + 1 := ⟨attempts - 2, by omega⟩
  simp [withRetryGo, hf, hr]

/-- A run that reaches attempt `a` (every earlier attempt from `attempt`
on failed transiently) and meets a non-transient error there — or has
exhausted its budget there — stops at once with that error, having slept
exactly the delays of the earlier retries. -/
theorem withRetryGo_aborts_at (f : Nat → Except String α) (baseDelayMs : Nat) :
    ∀ remaining attempt a e, 1 ≤ attempt → attempt ≤ a →
      a + 1 ≤ attempt + remaining →
      (∀ b, attempt ≤ b → b < a →
        ∃ e', f b = .error e' ∧ isRetryableTransformError e' = true) →
      f a = .error e →
      (isRetryableTransformError e = false ∨ a + 1 = attempt + remaining) →
      withRetryGo f baseDelayMs attempt remaining =
        ⟨.error e,
          (List.range (a - attempt)).map
            (fun j => baseDelayMs * 2 ^ (attempt - 1 + j))⟩ := by
  intro remaining
  induction remaining with
  | zero => intro attempt a e _ h2 h3 _ _ _; omega
  | succ n ih =>
    intro attempt a e h1 h2 h3 hpre hfa hstop
    by_cases haa : a = attempt
    · subst haa
      simp only [withRetryGo, hfa]
      rw [if_pos ?hc]
      case hc =>
        rcases hstop with hr | hn
        · simp [hr]
        · have : n = 0 := by omega
          simp [this]
      simp
    · have haa' : attempt < a := by omega
      obtain ⟨e', hfb, hre'⟩ := hpre attempt (le_refl _) haa'
      have hn : n ≠ 0 := by omega
      simp only [withRetryGo, hfb]
      rw [if_neg (by simp [hre', hn])]
      rw [ih (attempt + 1) a e (by omega) (by omega) (by omega)
        (fun b hb1 hb2 => hpre b (by omega) hb2) hfa
        (by rcases hstop with hr | hc; exacts [Or.inl hr, Or.inr (by omega)])]
      refine congrArg (fun d => RetryRun.mk (.error e) d) ?_
      have hk : a - attempt = (a - (attempt + 1)) + 1 := by omega
      rw [hk, List.range_succ_eq_map, List.map_cons, List.map_map]
      congr 1
      show List.map (fun j => baseDelayMs * 2 ^ (attempt + 1 - 1 + j))
          (List.range (a - (attempt + 1))) =
        List.map ((fun j => baseDelayMs * 2 ^ (attempt - 1 + j)) ∘ Nat.succ)
          (List.range (a - (attempt + 1)))
      apply List.map_congr_left
      intro j _
      simp only [Function.comp_apply]
      rw [show attempt + 1 - 1 + j = attempt - 1 + (j + 1) from by omega]

/-- A run that reaches attempt `a` with retry budget left and meets a
transient error there goes on to attempt `a + 1`, so at least
`a - attempt + 1` delays are slept in total. -/
theorem withRetryGo_retries_at (f : Nat → Except String α) (baseDelayMs : Nat) :
    ∀ remaining attempt a e, 1 ≤ attempt → attempt ≤ a →
      a + 2 ≤ attempt + remaining →
      (∀ b, attempt ≤ b → b < a →
        ∃ e', f b = .error e' ∧ isRetryableTransformError e' = true) →
      f a = .error e → isRetryableTransformError e = true →
      a - attempt + 1 ≤ (withRetryGo f baseDelayMs attempt remaining).delays.length := by
  intro remaining
  induction remaining with
  | zero => intro attempt a e _ h2 h3 _ _ _; omega
  | succ n ih =>
    intro attempt a e h1 h2 h3 hpre hfa hr
    by_cases haa : a = attempt
    · subst haa
      have hn : n ≠ 0 := by omega
      simp only [withRetryGo, hfa]
      rw [if_neg (by simp [hr, hn])]
      simp
    · have haa' : attempt < a := by omega
      obtain ⟨e', hfb, hre'⟩ := hpre attempt (le_refl _) haa'
      have hn : n ≠ 0 := by omega
      simp only [withRetryGo, hfb]
      rw [if_neg (by simp [hre', hn])]
      have := ih (attempt + 1) a e (by omega) (by omega) (by omega)
        (fun b hb1 hb2 => hpre b (by omega) hb2) hfa hr
      simp only [List.length_cons]
      omega

/-- `withRetry` version of `withRetryGo_aborts_at`: a non-transient error
at attempt `a` (or any error at the final budgeted attempt) ends the run
with that error after exactly `a - 1` backoff delays — no further
attempt is made. -/
theorem withRetry_aborts_at (f : Nat → Except String α)
    (attempts baseDelayMs a : Nat) (e : String) (h1 : 1 ≤ a)
    (h2 : a ≤ attempts)
    (hpre : ∀ b, 1 ≤ b → b < a →
      ∃ e', f b = .error e' ∧ isRetryableTransformError e' = true)
    (hfa : f a = .error e)
    (hstop : isRetryableTransformError e = false ∨ a = attempts) :
    withRetry f attempts baseDelayMs =
      ⟨.error e, (List.range (a - 1)).map (fun j => baseDelayMs * 2 ^ j)⟩ := by
  unfold withRetry
  rw [if_neg (by omega)]
  have := withRetryGo_aborts_at f baseDelayMs attempts 1 a e (le_refl 1) h1
    (by omega) hpre hfa
    (by rcases hstop with hr | hc; exacts [Or.inl hr, Or.inr (by omega)])
  simpa using this

/-- `withRetry` version of `withRetryGo_retries_at`: a transient error at
attempt `a < attempts` is retried — the run sleeps
`baseDelayMs * 2 ^ (a - 1)` (at index `a - 1` of the schedule) before
attempt `a + 1`. -/
theorem withRetry_retries_at (f : Nat → Except String α)
    (attempts baseDelayMs a : Nat) (e : String) (h1 : 1 ≤ a)
    (h2 : a < attempts)
    (hpre : ∀ b, 1 ≤ b → b < a →
      ∃ e', f b = .error e' ∧ isRetryableTransformError e' = true)
    (hfa : f a = .error e) (hr : isRetryableTransformError e = true) :
    a ≤ (withRetry f attempts baseDelayMs).delays.length ∧
    (withRetry f attempts baseDelayMs).delays[a - 1]? =
      some (baseDelayMs * 2 ^ (a - 1)) := by
  have hlen : a ≤ (withRetry f attempts baseDelayMs).delays.length := by
    unfold withRetry
    rw [if_neg (by omega)]
    have := withRetryGo_retries_at f baseDelayMs attempts 1 a e (le_refl 1) h1
      (by omega) hpre hfa hr
    omega
  exact ⟨hlen,
    withRetry_delays_getElem f attempts baseDelayMs (a - 1) (by omega)⟩

/-! ## Rounding lemmas -/

theorem jsRound_intCast (n : ℤ) : jsRound (n : ℚ) = n := by
  unfold jsRound
  rw [Int.floor_int_add]
  norm_num

theorem jsRound_le_of_le {q : ℚ} {n : ℤ} (h : q ≤ n) : jsRound q ≤ n := by
  unfold jsRound
  have h1 : ⌊q + 1 / 2⌋ ≤ ⌊(n : ℚ) + 1 / 2⌋ := Int.floor_le_floor (by linarith)
  rw [Int.floor_int_add] at h1
  have h2 : ⌊(1 : ℚ) / 2⌋ = 0 := by norm_num
  omega

/-! ## Claim C5 — retry policy -/

/-- C5: in every retry run, the delay slept at index `i` of the backoff
schedule is `baseDelayMs * 2 ^ i` (the delay before attempt `i + 2`, i.e.
`baseDelayMs * 2 ^ (attempt - 1)` after failed attempt `attempt`); an
error whose message contains no transient substring, met at *any* attempt
`a` the run reaches, aborts the run at once with that error after exactly
the `a - 1` already-slept delays — no further attempt (likewise any error
at the final budgeted attempt); a transient error at any attempt
`a < attempts` is retried, with the delay `baseDelayMs * 2 ^ (a - 1)`
slept before attempt `a + 1`; and the WebP transform of `compress` makes
at most 2 attempts while the AVIF transform makes at most 3. -/
theorem claim_C5_retry_policy (f : Nat → Except String CompressedImage)
    (attempts baseDelayMs i a : Nat) (e : String)
    (env : TransformEnv) (opts : CompressionOptions) :
    (i < (withRetry f attempts baseDelayMs).delays.length →
      (withRetry f attempts baseDelayMs).delays[i]? = some (baseDelayMs * 2 ^ i)) ∧
    (1 ≤ a → a ≤ attempts →
      (∀ b, 1 ≤ b → b < a →
        ∃ e', f b = .error e' ∧ isRetryableTransformError e' = true) →
      f a = .error e →
      (isRetryableTransformError e = false ∨ a = attempts) →
      withRetry f attempts baseDelayMs =
        ⟨.error e, (List.range (a - 1)).map (fun j => baseDelayMs * 2 ^ j)⟩) ∧
    (1 ≤ a → a < attempts →
      (∀ b, 1 ≤ b → b < a →
        ∃ e', f b = .error e' ∧ isRetryableTransformError e' = true) →
      f a = .error e → isRetryableTransformError e = true →
      a ≤ (withRetry f attempts baseDelayMs).delays.length ∧
      (withRetry f attempts baseDelayMs).delays[a - 1]? =
        some (baseDelayMs * 2 ^ (a - 1))) ∧
    (webpRetry env opts).delays.length + 1 ≤ 2 ∧
    (avifRetry env opts).delays.length + 1 ≤ 3 := by
  refine ⟨fun hi => withRetry_delays_getElem f attempts baseDelayMs i hi,
    fun h1 h2 hpre hfa hstop =>
      withRetry_aborts_at f attempts baseDelayMs a e h1 h2 hpre hfa hstop,
    fun h1 h2 hpre hfa hr =>
      withRetry_retries_at f attempts baseDelayMs a e h1 h2 hpre hfa hr,
    ?_, ?_⟩
  · simpa [webpRetry] using
      withRetry_attempts_le
        (env.webpOutcome (webpTargetDims opts env.width env.height)) 2 120 (by omega)
  · simpa [avifRetry] using
      withRetry_attempts_le
        (env.avifOutcome (avifTargetDims opts env.width env.height)) 3 120 (by omega)

/-- Witness for C5: a run failing with "timeout" on every attempt sleeps
120 ms then 240 ms; a run whose first error is transient ("timeout") and
whose second error is non-transient ("denied") aborts at attempt 2 with
that error, having slept exactly the one 120 ms delay; and a first-attempt
non-transient error aborts with no delays at all. -/
theorem claim_C5_retry_policy_witness :
    (withRetry (fun _ => (.error "timeout" : Except String CompressedImage))
      3 120).delays[1]? = some (120 * 2 ^ 1) ∧
    withRetry
      (fun n => if n = 1 then (.error "timeout" : Except String CompressedImage)
        else .error "denied") 3 120 =
      ⟨.error "denied", (List.range 1).map (fun j => 120 * 2 ^ j)⟩ ∧
    withRetry (fun _ => (.error "denied" : Except String CompressedImage))
      3 120 = ⟨.error "denied", (List.range 0).map (fun j => 120 * 2 ^ j)⟩ :=
  ⟨(claim_C5_retry_policy (fun _ => .error "timeout") 3 120 1 1 "timeout"
      sampleEnv {}).1 (by decide),
   (claim_C5_retry_policy
      (fun n => if n = 1 then .error "timeout" else .error "denied")
      3 120 0 2 "denied" sampleEnv {}).2.1 (by decide) (by decide)
      (fun b hb1 hb2 => by
        have hb : b = 1 := by omega
        subst hb
        exact ⟨"timeout", rfl, by decide⟩)
      rfl (Or.inl (by decide)),
   (claim_C5_retry_policy (fun _ => .error "denied") 3 120 0 1 "denied"
      sampleEnv {}).2.1 (by decide) (by decide)
      (fun b hb1 hb2 => absurd (by omega : b < 1) (by omega))
      rfl (Or.inl (by decide))⟩

/-! ## Claim C6 — variant independence and fallback -/

/-- C6: on a non-animated compression run the result contains a WebP
(resp. AVIF) variant exactly when generation is enabled and that
transform's retry run succeeded; the original bytes are returned intact;
each variant's outcome is unaffected by the other transform's oracle; and
at upload time an omitted variant is replaced by the original bytes under
the variant's storage key. -/
theorem claim_C6_variant_independence
    (env env' : TransformEnv) (data : List Nat) (format : String)
    (opts : CompressionOptions) (v : CompressedImage)
    (id : String) (info : ImageInfo) (fileSize : Nat) (ct : String)
    (tags : List String)
    (hna : ((format == "gif" && isAnimatedGif data) && opts.preserveAnimation) = false) :
    ((compress env data format opts).webp = some v ↔
      opts.generateWebp = true ∧ (webpRetry env opts).result = .ok v) ∧
    ((compress env data format opts).avif = some v ↔
      opts.generateAvif = true ∧ (avifRetry env opts).result = .ok v) ∧
    (compress env data format opts).original = data ∧
    (env'.width = env.width → env'.height = env.height →
      env'.webpOutcome = env.webpOutcome →
      (compress env' data format opts).webp = (compress env data format opts).webp) ∧
    (env'.width = env.width → env'.height = env.height →
      env'.avifOutcome = env.avifOutcome →
      (compress env' data format opts).avif = (compress env data format opts).avif) ∧
    ((info.format == "gif") = false →
      (compress env data format opts).webp = none →
      ((uploadSingle id info data fileSize ct true
          (compress env data format opts) tags).2)[1]? =
        some ⟨(generatePaths id info.orientation info.format).webp, data, ct⟩) ∧
    ((info.format == "gif") = false →
      (compress env data format opts).avif = none →
      ((uploadSingle id info data fileSize ct true
          (compress env data format opts) tags).2)[2]? =
        some ⟨(generatePaths id info.orientation info.format).avif, data, ct⟩) := by
  refine ⟨?_, ?_, ?_, ?_, ?_, ?_, ?_⟩
  · simp only [compress, hna]
    rw [if_neg (by simp)]
    cases hw : opts.generateWebp
    · simp [hw]
    · simp only [hw, if_true]
      cases hres : (webpRetry env opts).result <;> simp [Except.toOption, hres]
  · simp only [compress, hna]
    rw [if_neg (by simp)]
    cases hw : opts.generateAvif
    · simp [hw]
    · simp only [hw, if_true]
      cases hres : (avifRetry env opts).result <;> simp [Except.toOption, hres]
  · simp [compress, hna]
  · intro h1 h2 h3
    simp [compress, hna, webpRetry, webpTargetDims, h1, h2, h3]
  · intro h1 h2 h3
    simp [compress, hna, avifRetry, avifTargetDims, h1, h2, h3]
  · intro hg hw
    simp [uploadSingle, hg, hw]
  · intro hg ha
    simp [uploadSingle, hg, ha]

/-- Witness for C6: with an always-succeeding oracle and an impossible
WebP requirement removed, instantiates C6 on a static PNG run: the WebP
variant is present iff its retry run succeeded. -/
theorem claim_C6_variant_independence_witness :
    (compress sampleEnv [9] "png" {}).webp = some ⟨[0], "image/webp", 1⟩ ↔
      ({} : CompressionOptions).generateWebp = true ∧
      (webpRetry sampleEnv {}).result = .ok ⟨[0], "image/webp", 1⟩ :=
  (claim_C6_variant_independence sampleEnv sampleEnv [9] "png" {}
    ⟨[0], "image/webp", 1⟩ "id1" jpegInfo 3 "image/jpeg" [] (by decide)).1

/-! ## Claim C7 — animated inputs -/

/-- C7 counterexample: a byte stream with two frame markers whose declared
format is `png` (not `gif`) is not treated as animated by `compress` —
with `preserveAnimation = true`, variants are still produced, refuting
"for every input whose bytes form an animated sequence … compress performs
no transformation at all". -/
theorem claim_C7_counterexample :
    isAnimatedGif [0x2C, 0x2C, 0x00] = true ∧
    ({} : CompressionOptions).preserveAnimation = true ∧
    (compress sampleEnv [0x2C, 0x2C, 0x00] "png" {}).webp =
      some ⟨[0], "image/webp", 1⟩ := by
  refine ⟨by decide, rfl, by decide⟩

/-- C7 (amended): for every input of *format `gif`* whose bytes contain
more than one frame marker, with `preserveAnimation = true`, `compress`
performs no transformation and returns only the original bytes with
`isAnimated = true`. -/
theorem claim_C7_animated_gif_skip (env : TransformEnv) (data : List Nat)
    (format : String) (opts : CompressionOptions)
    (hg : format = "gif") (ha : isAnimatedGif data = true)
    (hp : opts.preserveAnimation = true) :
    compress env data format opts =
      { original := data, isAnimated := true, webp := none, avif := none } := by
  subst hg
  simp [compress, ha, hp]

/-- Witness for C7: a two-frame GIF byte stream is returned untouched. -/
theorem claim_C7_animated_gif_skip_witness :
    compress sampleEnv [0x21, 0xF9, 0x21, 0xF9] "gif" {} =
      { original := [0x21, 0xF9, 0x21, 0xF9], isAnimated := true,
        webp := none, avif := none } :=
  claim_C7_animated_gif_skip sampleEnv [0x21, 0xF9, 0x21, 0xF9] "gif" {}
    rfl (by decide) rfl

/-! ## Claim C8 — target dimensions -/

/-- C8: `compress` computes WebP target dimensions against
`maxWidth`/`maxHeight` directly and AVIF target dimensions against
`min(maxWidth, 1600)`/`min(maxHeight, 1600)`; `calculateDimensions`
returns the source unchanged when it fits the bounds, never exceeds the
bounds, never upscales, and scales both axes by one common factor
`0 < s ≤ 1` up to rounding. -/
theorem claim_C8_target_dimensions (opts : CompressionOptions)
    (w h maxW maxH : ℤ) (hw : 1 ≤ w) (hh : 1 ≤ h)
    (hmw : 1 ≤ maxW) (hmh : 1 ≤ maxH) :
    webpTargetDims opts w h =
      calculateDimensions w h opts.maxWidth opts.maxHeight ∧
    avifTargetDims opts w h =
      calculateDimensions w h (min (opts.maxWidth : ℤ) 1600)
        (min (opts.maxHeight : ℤ) 1600) ∧
    (w ≤ maxW → h ≤ maxH → calculateDimensions w h maxW maxH = (w, h)) ∧
    (calculateDimensions w h maxW maxH).1 ≤ maxW ∧
    (calculateDimensions w h maxW maxH).2 ≤ maxH ∧
    (calculateDimensions w h maxW maxH).1 ≤ w ∧
    (calculateDimensions w h maxW maxH).2 ≤ h ∧
    ∃ s : ℚ, 0 < s ∧ s ≤ 1 ∧
      (calculateDimensions w h maxW maxH).1 = jsRound (w * s) ∧
      (calculateDimensions w h maxW maxH).2 = jsRound (h * s) := by
  have hw0 : (0 : ℚ) < (w : ℚ) := by exact_mod_cast lt_of_lt_of_le zero_lt_one hw
  have hh0 : (0 : ℚ) < (h : ℚ) := by exact_mod_cast lt_of_lt_of_le zero_lt_one hh
  have hmw0 : (0 : ℚ) < (maxW : ℚ) := by
    exact_mod_cast lt_of_lt_of_le zero_lt_one hmw
  have hmh0 : (0 : ℚ) < (maxH : ℚ) := by
    exact_mod_cast lt_of_lt_of_le zero_lt_one hmh
  by_cases hfit : w ≤ maxW ∧ h ≤ maxH
  · have hcd : calculateDimensions w h maxW maxH = (w, h) := by
      simp [calculateDimensions, hfit]
    refine ⟨rfl, rfl, fun _ _ => hcd, ?_, ?_, ?_, ?_,
      ⟨1, one_pos, le_refl 1, ?_, ?_⟩⟩
    · rw [hcd]; exact hfit.1
    · rw [hcd]; exact hfit.2
    · rw [hcd]
    · rw [hcd]
    · rw [hcd]; simp [jsRound_intCast]
    · rw [hcd]; simp [jsRound_intCast]
  · set s : ℚ := min ((maxW : ℚ) / w) ((maxH : ℚ) / h) with hs
    have hcd : calculateDimensions w h maxW maxH =
        (jsRound (w * s), jsRound (h * s)) := by
      rw [calculateDimensions, if_neg hfit]
    have hs0 : 0 < s := lt_min (div_pos hmw0 hw0) (div_pos hmh0 hh0)
    have hs1 : s < 1 := by
      rcases not_and_or.mp hfit with hlt | hlt
      · push_neg at hlt
        have hq : (maxW : ℚ) / w < 1 := by
          rw [div_lt_one hw0]
          exact_mod_cast hlt
        exact lt_of_le_of_lt (min_le_left _ _) hq
      · push_neg at hlt
        have hq : (maxH : ℚ) / h < 1 := by
          rw [div_lt_one hh0]
          exact_mod_cast hlt
        exact lt_of_le_of_lt (min_le_right _ _) hq
    have hwB : (w : ℚ) * s ≤ (maxW : ℚ) := by
      have h1 : s ≤ (maxW : ℚ) / w := min_le_left _ _
      have h2 : (w : ℚ) * s ≤ (w : ℚ) * ((maxW : ℚ) / w) :=
        mul_le_mul_of_nonneg_left h1 (le_of_lt hw0)
      have h3 : (w : ℚ) * ((maxW : ℚ) / w) = (maxW : ℚ) := by
        field_simp
      linarith
    have hhB : (h : ℚ) * s ≤ (maxH : ℚ) := by
      have h1 : s ≤ (maxH : ℚ) / h := min_le_right _ _
      have h2 : (h : ℚ) * s ≤ (h : ℚ) * ((maxH : ℚ) / h) :=
        mul_le_mul_of_nonneg_left h1 (le_of_lt hh0)
      have h3 : (h : ℚ) * ((maxH : ℚ) / h) = (maxH : ℚ) := by
        field_simp
      linarith
    have hwU : (w : ℚ) * s ≤ (w : ℚ) := by nlinarith
    have hhU : (h : ℚ) * s ≤ (h : ℚ) := by nlinarith
    refine ⟨rfl, rfl, fun h1 h2 => absurd ⟨h1, h2⟩ hfit, ?_, ?_, ?_, ?_,
      ⟨s, hs0, le_of_lt hs1, ?_, ?_⟩⟩
    · rw [hcd]; exact jsRound_le_of_le hwB
    · rw [hcd]; exact jsRound_le_of_le hhB
    · rw [hcd]; exact jsRound_le_of_le hwU
    · rw [hcd]; exact jsRound_le_of_le hhU
    · rw [hcd]
    · rw [hcd]

/-- Witness for C8: instantiated at a 2000×3000 source with the default
3840×3840 compression bounds. -/
theorem claim_C8_target_dimensions_witness :
    webpTargetDims {} 2000 3000 =
      calculateDimensions 2000 3000 ({} : CompressionOptions).maxWidth
        ({} : CompressionOptions).maxHeight ∧
    calculateDimensions 2000 3000 3840 3840 = (2000, 3000) :=
  ⟨(claim_C8_target_dimensions {} 2000 3000 3840 3840 (by decide) (by decide)
      (by decide) (by decide)).1,
   (claim_C8_target_dimensions {} 2000 3000 3840 3840 (by decide) (by decide)
      (by decide) (by decide)).2.2.1 (by decide) (by decide)⟩

/-! ## Claim C2 — tag-deletion pipeline -/

/-- C2: on a successful metadata deletion the handler's trace is exactly
metadata deletion, then cache invalidation, then the queue submissions;
every submitted job's chunk holds at most 50 image-path entries (and the
chunks cover all affected images); if the metadata deletion throws, the
handler reports failure with an empty trace — in particular zero queue
jobs. -/
theorem claim_C2_delete_pipeline (images : List TagImageEntry)
    (metaResult : Except String Nat) :
    (∀ n, metaResult = .ok n →
      deleteTagHandler images metaResult =
        (true, .metaDeleted n :: .cacheInvalidated ::
          (chunksOf 50 images).map DeleteEvent.queueSent)) ∧
    (∀ c ∈ chunksOf 50 images, c.length ≤ 50) ∧
    (chunksOf 50 images).flatten = images ∧
    (∀ e, metaResult = .error e →
      deleteTagHandler images metaResult = (false, [])) := by
  refine ⟨fun n hn => ?_, chunksOf_length_le images,
    chunksOf_flatten images (by omega), fun e he => ?_⟩
  · subst hn; rfl
  · subst he; rfl

/-- Witness for C2: a successful deletion of 60 images produces the
ordered trace, and a failing metadata deletion produces a failed response
with no events. -/
theorem claim_C2_delete_pipeline_witness :
    deleteTagHandler (List.replicate 60 ⟨"i1", "p", none, none⟩) (.ok 60) =
      (true, .metaDeleted 60 :: .cacheInvalidated ::
        (chunksOf 50 (List.replicate 60 ⟨"i1", "p", none, none⟩)).map
          DeleteEvent.queueSent) ∧
    deleteTagHandler [] (.error "db unavailable") = (false, []) :=
  ⟨(claim_C2_delete_pipeline (List.replicate 60 ⟨"i1", "p", none, none⟩)
      (.ok 60)).1 60 rfl,
   (claim_C2_delete_pipeline [] (.error "db unavailable")).2.2.2
      "db unavailable" rfl⟩

/-! ## Claim C3 — variant paths in the image record -/

/-- C3 counterexample: an upload whose compression produced neither
variant still records non-empty webp and avif paths in the metadata,
refuting "when compression yields no variant, the recorded path is empty
or absent". -/
theorem claim_C3_counterexample :
    noVariantResult.webp = none ∧ noVariantResult.avif = none ∧
    (uploadSingle "img1" jpegInfo [1, 2, 3] 3 "image/jpeg" true
      noVariantResult []).1.paths.webp ≠ "" ∧
    (uploadSingle "img1" jpegInfo [1, 2, 3] 3 "image/jpeg" true
      noVariantResult []).1.paths.avif ≠ "" := by
  exact ⟨rfl, rfl, by decide, by decide⟩

/-- C3 (amended): the image record of an upload always carries the full
generated path triple; for a non-GIF upload with compression available,
a variant that compression did *not* produce is backed by the original
bytes stored under that variant's key (delivery fallback), and a variant
that was produced is stored under its key with the compressed bytes. -/
theorem claim_C3_variant_paths (id : String) (info : ImageInfo)
    (bytes : List Nat) (fileSize : Nat) (ct : String) (ca : Bool)
    (cr : CompressionResult) (tags : List String) :
    (uploadSingle id info bytes fileSize ct ca cr tags).1.paths =
      generatePaths id info.orientation info.format ∧
    ((info.format == "gif") = false → ca = true → cr.webp = none →
      (⟨(generatePaths id info.orientation info.format).webp, bytes, ct⟩ :
        StoredObject) ∈ (uploadSingle id info bytes fileSize ct ca cr tags).2) ∧
    ((info.format == "gif") = false → ca = true → cr.avif = none →
      (⟨(generatePaths id info.orientation info.format).avif, bytes, ct⟩ :
        StoredObject) ∈ (uploadSingle id info bytes fileSize ct ca cr tags).2) ∧
    (∀ v, (info.format == "gif") = false → ca = true → cr.webp = some v →
      (⟨(generatePaths id info.orientation info.format).webp, v.data,
        "image/webp"⟩ : StoredObject) ∈
        (uploadSingle id info bytes fileSize ct ca cr tags).2) ∧
    (∀ v, (info.format == "gif") = false → ca = true → cr.avif = some v →
      (⟨(generatePaths id info.orientation info.format).avif, v.data,
        "image/avif"⟩ : StoredObject) ∈
        (uploadSingle id info bytes fileSize ct ca cr tags).2) := by
  refine ⟨?_, ?_, ?_, ?_, ?_⟩
  · cases hgf : info.format == "gif" <;> cases ca <;> simp [uploadSingle, hgf]
  · intro hg hca hw
    subst hca
    simp [uploadSingle, hg, hw]
  · intro hg hca ha
    subst hca
    simp [uploadSingle, hg, ha]
  · intro v hg hca hw
    subst hca
    simp [uploadSingle, hg, hw]
  · intro v hg hca ha
    subst hca
    simp [uploadSingle, hg, ha]

/-- Witness for C3 (amended): instantiated at the no-variant jpeg upload:
the original bytes land under the generated webp key. -/
theorem claim_C3_variant_paths_witness :
    (⟨(generatePaths "img1" jpegInfo.orientation jpegInfo.format).webp,
      [1, 2, 3], "image/jpeg"⟩ : StoredObject) ∈
      (uploadSingle "img1" jpegInfo [1, 2, 3] 3 "image/jpeg" true
        noVariantResult []).2 :=
  (claim_C3_variant_paths "img1" jpegInfo [1, 2, 3] 3 "image/jpeg" true
    noVariantResult []).2.1 (by decide) rfl rfl

/-! ## Claim C4 — bound-parameter chunking -/

/-- C4 counterexample: `batchUpdateTags` with 1000 image ids and one
removed tag issues a single DELETE statement binding 1001 parameters —
the id set is not split into chunks of at most about 90 ids, refuting the
claim for `batchUpdateTags`. -/
theorem claim_C4_counterexample :
    batchUpdateTagsStatements (List.replicate 1000 "i") [] ["t"] =
      [List.replicate 1000 "i" ++ ["t"]] ∧
    (List.replicate 1000 "i" ++ ["t"]).length = 1001 := by
  have hrep : ¬((List.replicate 1000 "i").isEmpty = true) := by
    rw [List.isEmpty_iff]
    intro h0
    have := congrArg List.length h0
    rw [List.length_replicate] at this
    simp at this
  constructor
  · rw [batchUpdateTagsStatements, if_neg hrep]
    rfl
  · rw [List.length_append, List.length_replicate]
    rfl

/-- C4 (amended): `enrichWithTags` does chunk its IN-clause ids into
batches of at most 90 per statement, covering every id; `batchUpdateTags`
does not chunk — with non-empty ids and removed tags it issues one DELETE
binding `|imageIds| + |removeTags|` parameters, and one INSERT per added
tag binding `1 + |imageIds|` parameters. -/
theorem claim_C4_parameter_chunking (imageIds addTags removeTags : List String) :
    (∀ c ∈ enrichWithTagsChunks imageIds, c.length ≤ 90) ∧
    (enrichWithTagsChunks imageIds).flatten = imageIds ∧
    (imageIds ≠ [] → removeTags ≠ [] →
      (imageIds ++ removeTags) ∈
        batchUpdateTagsStatements imageIds addTags removeTags ∧
      (imageIds ++ removeTags).length =
        imageIds.length + removeTags.length) ∧
    (∀ t, imageIds ≠ [] → t ∈ addTags →
      (t :: imageIds) ∈ batchUpdateTagsStatements imageIds addTags removeTags ∧
      (t :: imageIds).length = 1 + imageIds.length) := by
  refine ⟨chunksOf_length_le imageIds,
    chunksOf_flatten imageIds (by omega), fun hne hr => ⟨?_, by simp⟩,
    fun t hne ht => ⟨?_, by simp [Nat.add_comm]⟩⟩
  · rw [batchUpdateTagsStatements, if_neg (by simp [hne])]
    simp [hr]
  · rw [batchUpdateTagsStatements, if_neg (by simp [hne])]
    have hA : addTags ≠ [] := fun h0 => by simp [h0] at ht
    have hA2 : ¬(addTags.isEmpty = true) := by
      simp only [List.isEmpty_iff]
      exact hA
    simp only [List.mem_append, or_assoc]
    right; right
    rw [if_neg hA2]
    exact List.mem_map.mpr ⟨t, ht, rfl⟩

/-- Witness for C4 (amended): instantiated at a two-id batch: the single
chunk `["a", "b"]` respects the 90-parameter bound, and the unchunked
DELETE binds both ids plus the removed tag. -/
theorem claim_C4_parameter_chunking_witness :
    (["a", "b"] : List String).length ≤ 90 ∧
    (["a", "b"] ++ ["r"]) ∈ batchUpdateTagsStatements ["a", "b"] ["t"] ["r"] :=
  ⟨(claim_C4_parameter_chunking ["a", "b"] ["t"] ["r"]).1 ["a", "b"]
      (by rw [enrichWithTagsChunks, chunksOf, dif_neg (by simp)]; simp [chunksOf]),
   ((claim_C4_parameter_chunking ["a", "b"] ["t"] ["r"]).2.2.1
      (by simp) (by simp)).1⟩

/-! ## Candidate-set lemmas for getRandomImage -/

theorem subset_of_dedup_length_eq {l tags : List String} (hnd : tags.Nodup)
    (hsub : ∀ x ∈ l, x ∈ tags) (hlen : l.dedup.length = tags.length) :
    ∀ t ∈ tags, t ∈ l := by
  have h1 : l.dedup.toFinset ⊆ tags.toFinset := by
    intro x hx
    rw [List.mem_toFinset] at hx ⊢
    exact hsub x (List.mem_dedup.mp hx)
  have h2 : tags.toFinset.card ≤ l.dedup.toFinset.card := by
    rw [List.toFinset_card_of_nodup (List.nodup_dedup l),
      List.toFinset_card_of_nodup hnd, hlen]
  have h3 : l.dedup.toFinset = tags.toFinset :=
    Finset.eq_of_subset_of_card_le h1 h2
  intro t ht
  have := h3 ▸ List.mem_toFinset.mpr ht
  exact List.mem_dedup.mp (List.mem_toFinset.mp this)

theorem dedup_length_eq_of_mem_iff {l tags : List String} (hnd : tags.Nodup)
    (hiff : ∀ x, x ∈ l ↔ x ∈ tags) : l.dedup.length = tags.length := by
  have h3 : l.dedup.toFinset = tags.toFinset := by
    ext x
    rw [List.mem_toFinset, List.mem_toFinset, List.mem_dedup]
    exact hiff x
  rw [← List.toFinset_card_of_nodup (List.nodup_dedup l),
    ← List.toFinset_card_of_nodup hnd, h3]

theorem isEmpty_false_of_ne_nil {l : List α} (h : l ≠ []) : l.isEmpty = false := by
  rw [← Bool.not_eq_true, List.isEmpty_iff]
  exact h

/-- Membership in the `getRandomImage` candidate set, clause by clause. -/
theorem mem_getRandomImageCandidates (db : Db) (tags exclude : List String)
    (orientation : Option String) (i : ImageRow) :
    i ∈ getRandomImageCandidates db tags exclude orientation ↔
      i ∈ db.images ∧ orientationOk orientation i = true ∧
      (exclude ≠ [] → isExcluded db exclude i.id = false) ∧
      (tags ≠ [] →
        ((joinedTagNames db i.id).filter
          (fun n => tags.contains n)).dedup.length = tags.length) ∧
      (tags = [] → exclude ≠ [] → joinedTagNames db i.id ≠ []) := by
  by_cases ht : tags = [] <;> by_cases he : exclude = []
  · subst ht; subst he
    simp [getRandomImageCandidates, List.mem_filter]
  · subst ht
    have he' := isEmpty_false_of_ne_nil he
    simp [getRandomImageCandidates, he', he, List.mem_filter, List.isEmpty_iff,
      Bool.and_eq_true, Bool.or_eq_true, Bool.not_eq_true']
    tauto
  · subst he
    have ht' := isEmpty_false_of_ne_nil ht
    simp [getRandomImageCandidates, ht', ht, List.mem_filter, List.isEmpty_iff,
      Bool.and_eq_true, Bool.or_eq_true, Bool.not_eq_true']
  · have ht' := isEmpty_false_of_ne_nil ht
    have he' := isEmpty_false_of_ne_nil he
    simp [getRandomImageCandidates, ht', he', ht, he, List.mem_filter,
      List.isEmpty_iff, Bool.and_eq_true, Bool.or_eq_true, Bool.not_eq_true']
    tauto

/-- The spec-side matching predicate, unfolded to propositions. -/
theorem specMatchesFilters_eq_true_iff (db : Db) (tags exclude : List String)
    (orientation : Option String) (i : ImageRow) :
    specMatchesFilters db tags exclude orientation i = true ↔
      (∀ t ∈ tags, t ∈ joinedTagNames db i.id) ∧
      (∀ t ∈ exclude, t ∉ joinedTagNames db i.id) ∧
      orientationOk orientation i = true := by
  simp [specMatchesFilters, List.all_eq_true, and_assoc]

/-- `isExcluded = false` says no joined tag name of the image is in
`exclude`. -/
theorem isExcluded_eq_false_iff (db : Db) (exclude : List String) (iid : String) :
    isExcluded db exclude iid = false ↔
      ∀ n ∈ joinedTagNames db iid, n ∉ exclude := by
  simp [isExcluded, List.any_eq_false]

/-- Orientation soundness of the candidate set (shared by C1 and C10). -/
theorem candidates_orientation (db : Db) (tags exclude : List String)
    (o : String) (ho : o ≠ "") (i : ImageRow)
    (h : i ∈ getRandomImageCandidates db tags exclude (some o)) :
    i.orientation = o := by
  rw [mem_getRandomImageCandidates] at h
  have h2 := h.2.1
  simp only [orientationOk, Bool.or_eq_true, beq_iff_eq] at h2
  rcases h2 with h2 | h2
  · exact absurd h2.symm (fun hq => ho hq.symm)
  · exact h2

/-! ## Claim C1 — getRandomImage filter semantics -/

/-- C1 counterexample: with only an exclude filter, a stored image with no
tags at all satisfies the spec's three conditions yet the query's INNER
JOIN on `image_tags` leaves it out of the candidate set entirely, so no
result is returned although one image matches. -/
theorem claim_C1_counterexample :
    specMatchesFilters untaggedDb [] ["x"] none ⟨"i1", "landscape"⟩ = true ∧
    (⟨"i1", "landscape"⟩ : ImageRow) ∈ untaggedDb.images ∧
    getRandomImageCandidates untaggedDb [] ["x"] none = [] := by
  decide

/-- C1 (amended): for duplicate-free `tags`, every candidate of
`getRandomImage` matches all of `tags`, none of `exclude`, and the
orientation filter; conversely every stored image satisfying those
conditions is in the candidate set — except that when a tag join is
present (some filter non-empty) the image must have at least one tag,
which is automatic unless only `exclude` is given; under the same proviso
a candidate exists whenever a matching image exists. -/
theorem claim_C1_random_image_filters (db : Db) (tags exclude : List String)
    (orientation : Option String) (i : ImageRow) (hnd : tags.Nodup) :
    (i ∈ getRandomImageCandidates db tags exclude orientation →
      specMatchesFilters db tags exclude orientation i = true) ∧
    (i ∈ db.images →
      specMatchesFilters db tags exclude orientation i = true →
      (tags = [] → exclude ≠ [] → joinedTagNames db i.id ≠ []) →
      i ∈ getRandomImageCandidates db tags exclude orientation) ∧
    (i ∈ db.images →
      specMatchesFilters db tags exclude orientation i = true →
      (tags = [] → exclude ≠ [] → joinedTagNames db i.id ≠ []) →
      getRandomImageCandidates db tags exclude orientation ≠ []) := by
  have hcomp : i ∈ db.images →
      specMatchesFilters db tags exclude orientation i = true →
      (tags = [] → exclude ≠ [] → joinedTagNames db i.id ≠ []) →
      i ∈ getRandomImageCandidates db tags exclude orientation := by
    intro hin hspec hjoin
    rw [specMatchesFilters_eq_true_iff] at hspec
    obtain ⟨hall, hnone, ho⟩ := hspec
    rw [mem_getRandomImageCandidates]
    refine ⟨hin, ho, fun _ => ?_, fun ht0 => ?_, hjoin⟩
    · rw [isExcluded_eq_false_iff]
      intro n hn hnin
      exact hnone n hnin hn
    · apply dedup_length_eq_of_mem_iff hnd
      intro x
      constructor
      · intro hx
        have := (List.mem_filter.mp hx).2
        simpa using this
      · intro hx
        exact List.mem_filter.mpr ⟨hall x hx, by simpa using hx⟩
  refine ⟨?_, hcomp, fun hin hs hj => List.ne_nil_of_mem (hcomp hin hs hj)⟩
  intro hmem
  rw [mem_getRandomImageCandidates] at hmem
  obtain ⟨hin, ho, hex, htag, _⟩ := hmem
  rw [specMatchesFilters_eq_true_iff]
  refine ⟨?_, ?_, ho⟩
  · intro t ht
    by_cases ht0 : tags = []
    · subst ht0; simp at ht
    · have hlen := htag ht0
      have hsub : ∀ x ∈ (joinedTagNames db i.id).filter
          (fun n => tags.contains n), x ∈ tags := by
        intro x hx
        have := (List.mem_filter.mp hx).2
        simpa using this
      have := subset_of_dedup_length_eq hnd hsub hlen t ht
      exact (List.mem_filter.mp this).1
  · intro t ht hmem2
    by_cases he0 : exclude = []
    · subst he0; simp at ht
    · have hexf := hex he0
      rw [isExcluded_eq_false_iff] at hexf
      exact hexf t hmem2 ht

/-- Witness for C1 (amended): in a database with one image tagged `a`, the
image matches the single-tag filter and is a candidate. -/
theorem claim_C1_random_image_filters_witness :
    (⟨"i1", "landscape"⟩ : ImageRow) ∈
      getRandomImageCandidates taggedDb ["a"] [] none :=
  (claim_C1_random_image_filters taggedDb ["a"] [] none ⟨"i1", "landscape"⟩
    (by decide)).2.1 (by decide) (by decide) (by decide)

/-! ## String lemmas for URL resolution -/

theorem string_append_eq_empty_iff (a b : String) :
    a ++ b = "" ↔ a = "" ∧ b = "" := by
  constructor
  · intro h
    have hd : a.data ++ b.data = [] := by
      have := congrArg String.data h
      simpa [String.data_append] using this
    have h2 := List.append_eq_nil.mp hd
    exact ⟨by apply String.ext; simpa using h2.1,
      by apply String.ext; simpa using h2.2⟩
  · rintro ⟨rfl, rfl⟩
    rfl

theorem buildPublicUrl_ne_empty (b k : String) : buildPublicUrl b k ≠ "" := by
  simp only [buildPublicUrl]
  by_cases hb : b.endsWith "/"
  · rw [if_pos hb]
    have hbne : b ≠ "" := by
      intro h0; subst h0; exact absurd hb (by decide)
    intro h
    exact hbne ((string_append_eq_empty_iff _ _).mp h).1
  · rw [if_neg hb]
    intro h
    have h1 := ((string_append_eq_empty_iff _ _).mp h).1
    have h2 := ((string_append_eq_empty_iff _ _).mp h1).2
    exact absurd h2 (by decide)

theorem buildTransformedUrl_ne_empty (u o : String) :
    buildTransformedUrl u o ≠ "" := by
  simp only [buildTransformedUrl]
  intro h
  simp [string_append_eq_empty_iff] at h

/-- The WebP URL of `buildImageUrls` is non-empty whenever WebP generation
is enabled and a genuine stored variant exists, or the image is itself
WebP, or a JPEG/JPG/PNG transform fallback applies. -/
theorem buildImageUrls_webp_ne (baseUrl : String) (image : UrlImage)
    (opts : UrlOptions)
    (hng : lowerStr image.format ≠ "gif") (hgw : opts.generateWebp = true)
    (hcond : (image.paths.webp ≠ "" ∧ (image.paths.webp ≠ image.paths.original ∨
        lowerStr image.format = "webp")) ∨
      lowerStr image.format = "webp" ∨
      (lowerStr image.format = "jpeg" ∨ lowerStr image.format = "jpg" ∨
        lowerStr image.format = "png")) :
    (buildImageUrls baseUrl image opts true).webp ≠ "" := by
  simp only [buildImageUrls]
  rw [if_neg (by simp [hng])]
  simp only [hgw, Bool.not_true]
  rw [if_neg (by simp)]
  split_ifs with hA hB hC hD hE hF hG hH hI
  · exact buildPublicUrl_ne_empty _ _
  · exact buildPublicUrl_ne_empty _ _
  · have hbe : buildPublicUrl baseUrl image.paths.webp = "" := by
      by_contra hne
      exact hB (by simp [hne])
    exact absurd hbe (buildPublicUrl_ne_empty _ _)
  · exact buildTransformedUrl_ne_empty _ _
  · exact buildTransformedUrl_ne_empty _ _
  · simp at hF
  · exact buildPublicUrl_ne_empty _ _
  · rcases hcond with ⟨hpw, hmo | hfw2⟩ | hfw | hj | hj | hj
    · exact absurd (by simp [hpw, hmo]) hA
    · exact absurd (by simp [hfw2]) hG
    · exact absurd (by simp [hfw]) hG
    · simp [hj] at hH
    · simp [hj] at hH
    · simp [hj] at hH
  · exact buildTransformedUrl_ne_empty _ _
  · exact buildTransformedUrl_ne_empty _ _

/-- The AVIF analogue of `buildImageUrls_webp_ne`. -/
theorem buildImageUrls_avif_ne (baseUrl : String) (image : UrlImage)
    (opts : UrlOptions)
    (hng : lowerStr image.format ≠ "gif") (hga : opts.generateAvif = true)
    (hcond : (image.paths.avif ≠ "" ∧ (image.paths.avif ≠ image.paths.original ∨
        lowerStr image.format = "avif")) ∨
      lowerStr image.format = "avif" ∨
      (lowerStr image.format = "jpeg" ∨ lowerStr image.format = "jpg" ∨
        lowerStr image.format = "png")) :
    (buildImageUrls baseUrl image opts true).avif ≠ "" := by
  simp only [buildImageUrls]
  rw [if_neg (by simp [hng])]
  simp only [hga, Bool.not_true]
  rw [if_neg (by simp)]
  split_ifs with hA hB hC hD hE hF hG hH hI
  · exact buildPublicUrl_ne_empty _ _
  · exact buildPublicUrl_ne_empty _ _
  · have hbe : buildPublicUrl baseUrl image.paths.avif = "" := by
      by_contra hne
      exact hB (by simp [hne])
    exact absurd hbe (buildPublicUrl_ne_empty _ _)
  · exact buildTransformedUrl_ne_empty _ _
  · exact buildTransformedUrl_ne_empty _ _
  · simp at hF
  · exact buildPublicUrl_ne_empty _ _
  · rcases hcond with ⟨hpw, hmo | hfw2⟩ | hfw | hj | hj | hj
    · exact absurd (by simp [hpw, hmo]) hA
    · exact absurd (by simp [hfw2]) hG
    · exact absurd (by simp [hfw]) hG
    · simp [hj] at hH
    · simp [hj] at hH
    · simp [hj] at hH
  · exact buildTransformedUrl_ne_empty _ _
  · exact buildTransformedUrl_ne_empty _ _

/-! ## Claim C9 — URL resolution -/

/-- C9 counterexample: for a non-GIF (JPEG) image with no stored variant
paths, `randomHandler` disables variant generation
(`generateWebp: !!image.paths.webp`), so the resolved WebP and AVIF URLs
are both empty even though the JPEG transform fallback is available —
refuting "for non-GIF images, the resolved WebP/AVIF URL is never empty
when … a JPEG/PNG transform fallback is available". -/
theorem claim_C9_counterexample :
    jpegNoVariantImage.format = "jpeg" ∧
    (randomHandlerUrls "https://cdn.test" jpegNoVariantImage).webp = "" ∧
    (randomHandlerUrls "https://cdn.test" jpegNoVariantImage).avif = "" :=
  ⟨rfl, by decide, by decide⟩

/-- C9 (amended): a GIF image resolves to the original URL as delivery
target regardless of the Accept header or requested format, with empty
WebP/AVIF URLs; for a non-GIF image, *when variant generation for the
format is enabled in the options*, the resolved WebP (resp. AVIF) URL is
non-empty whenever a genuine stored variant exists, the image already has
that format, or a JPEG/JPG/PNG transform fallback is available. -/
theorem claim_C9_url_resolution (baseUrl : String) (image : UrlImage)
    (opts : UrlOptions) (formatParam acceptHeader : Option String) :
    (image.format = "gif" →
      randomHandlerUrls baseUrl image =
        ⟨buildPublicUrl baseUrl image.paths.original, "", ""⟩ ∧
      randomHandlerTargetUrl image (randomHandlerUrls baseUrl image)
          formatParam acceptHeader =
        buildPublicUrl baseUrl image.paths.original) ∧
    (lowerStr image.format ≠ "gif" → opts.generateWebp = true →
      ((image.paths.webp ≠ "" ∧ (image.paths.webp ≠ image.paths.original ∨
          lowerStr image.format = "webp")) ∨
        lowerStr image.format = "webp" ∨
        (lowerStr image.format = "jpeg" ∨ lowerStr image.format = "jpg" ∨
          lowerStr image.format = "png")) →
      (buildImageUrls baseUrl image opts true).webp ≠ "") ∧
    (lowerStr image.format ≠ "gif" → opts.generateAvif = true →
      ((image.paths.avif ≠ "" ∧ (image.paths.avif ≠ image.paths.original ∨
          lowerStr image.format = "avif")) ∨
        lowerStr image.format = "avif" ∨
        (lowerStr image.format = "jpeg" ∨ lowerStr image.format = "jpg" ∨
          lowerStr image.format = "png")) →
      (buildImageUrls baseUrl image opts true).avif ≠ "") := by
  refine ⟨?_, buildImageUrls_webp_ne baseUrl image opts,
    buildImageUrls_avif_ne baseUrl image opts⟩
  intro hg
  have hlow : lowerStr image.format = "gif" := by rw [hg]; decide
  have hurls : randomHandlerUrls baseUrl image =
      ⟨buildPublicUrl baseUrl image.paths.original, "", ""⟩ := by
    unfold randomHandlerUrls
    simp only [buildImageUrls]
    rw [if_pos (by simp [hlow])]
  refine ⟨hurls, ?_⟩
  unfold randomHandlerTargetUrl
  rw [if_pos (by simp [hg]), hurls]

/-- Witness for C9 (amended): a GIF resolves to its original URL with
empty variants, and a JPEG with a genuine stored WebP variant resolves a
non-empty WebP URL. -/
theorem claim_C9_url_resolution_witness :
    randomHandlerUrls "https://cdn.test" gifImage =
      ⟨buildPublicUrl "https://cdn.test" gifImage.paths.original, "", ""⟩ ∧
    (buildImageUrls "https://cdn.test" jpegStoredImage {} true).webp ≠ "" :=
  ⟨((claim_C9_url_resolution "https://cdn.test" gifImage {} none none).1
      rfl).1,
   (claim_C9_url_resolution "https://cdn.test" jpegStoredImage {} none
      none).2.1 (by decide) rfl (Or.inl ⟨by decide, Or.inl (by decide)⟩)⟩

/-! ## Claim C10 — orientation defaulting in randomHandler -/

/-- C10: when the orientation query parameter is neither exactly
`landscape` nor exactly `portrait` (including when absent), the handler
derives the orientation filter from the User-Agent — `portrait` for a
mobile device, `landscape` otherwise — and every candidate drawn under
that filter has exactly that orientation, so a default request never
draws from both orientations. -/
theorem claim_C10_orientation_default (orientationParam : Option String)
    (isMobile : Bool) (db : Db) (tags exclude : List String) (i : ImageRow)
    (h1 : orientationParam ≠ some "landscape")
    (h2 : orientationParam ≠ some "portrait") :
    randomHandlerOrientation orientationParam isMobile =
      (if isMobile then "portrait" else "landscape") ∧
    (i ∈ getRandomImageCandidates db tags exclude
        (some (randomHandlerOrientation orientationParam isMobile)) →
      i.orientation = randomHandlerOrientation orientationParam isMobile) := by
  have hval : randomHandlerOrientation orientationParam isMobile =
      (if isMobile then "portrait" else "landscape") := by
    unfold randomHandlerOrientation
    split
    · exact absurd rfl h1
    · exact absurd rfl h2
    · rfl
  have hne : randomHandlerOrientation orientationParam isMobile ≠ "" := by
    rw [hval]
    cases isMobile <;> decide
  exact ⟨hval, fun hmem =>
    candidates_orientation db tags exclude _ hne i hmem⟩

/-- Witness for C10: with no orientation parameter and a non-mobile
User-Agent the filter is `landscape`. -/
theorem claim_C10_orientation_default_witness :
    randomHandlerOrientation none false = "landscape" :=
  ((claim_C10_orientation_default none false untaggedDb [] []
      ⟨"i1", "landscape"⟩ (by decide) (by decide)).1).trans rfl

end CattoPic
